import Mathlib

/-
Shallow embedding of the Telegram quiz-image-game bot (src/pyguessinggame.py).
The Round Engine state, the Roster Store and the message handlers are
translated into pure Lean functions; the durable participant file is passed
explicitly as a list of records, and the store's write path is modelled as a
sequence of file-system micro-steps so that crash windows can be examined.
-/

/-- Constant POINTS_PER_CORRECT_ANSWER from the source (value 5). -/
def POINTS_PER_CORRECT_ANSWER : Int := 5

/-- Constant HINT_PENALTY from the source (value 1). -/
def HINT_PENALTY : Int := 1

/-- Constant MAX_HINTS from the source (value 4). -/
def MAX_HINTS : Nat := 4

/-- Constant AUTHORIZED_ADMINS from the source: the fixed operator allow-list. -/
def AUTHORIZED_ADMINS : List String := ["chicago311", "LesterRonquillo", "Aldrin1212"]

/-- QuizBot._is_authorized_admin: membership of the username in the allow-list. -/
def isAuthorizedAdmin (username : String) : Bool :=
  AUTHORIZED_ADMINS.contains username

/-- A participant record as stored in guessjoin.txt: the dict written by
join_participate with keys username, full_name, score, join_date. -/
structure Participant where
  username : String
  full_name : String
  score : Int
  join_date : String
deriving DecidableEq, Repr

/-- A puzzle record from tokenimage.json: a dict whose relevant key is image. -/
structure Puzzle where
  image : String
deriving DecidableEq, Repr

/-- The QuizGame engine state: fields game_active, current_puzzle, puzzle_data,
hints_given of class QuizGame, plus the puzzle_solved attribute that
handle_message and next_game maintain on the same object. -/
structure QuizGame where
  game_active : Bool
  current_puzzle : Option Puzzle
  puzzle_data : List Puzzle
  hints_given : Nat
  puzzle_solved : Bool
deriving DecidableEq, Repr

/-- The bot-level state relevant to message handling: the engine state plus the
content of the participants file (the Roster Store). -/
structure BotState where
  game : QuizGame
  store : List Participant
deriving DecidableEq, Repr

/-- Whitespace characters removed by Python str.strip() (ASCII range). -/
def pyWhitespace : List Char := [' ', '\t', '\n', '\r', '\x0b', '\x0c']

/-- Python str.strip(): drop leading and trailing whitespace. -/
def pyStrip (s : String) : String :=
  String.mk
    (((s.data.dropWhile (fun c => pyWhitespace.contains c)).reverse.dropWhile
        (fun c => pyWhitespace.contains c)).reverse)

/-- Python str.lower() restricted to ASCII case folding. -/
def pyLower (s : String) : String :=
  String.mk (s.data.map Char.toLower)

/-- Index of the last '.' in a character list, if any. -/
def findLastDot : List Char → Option Nat
  | [] => none
  | c :: cs =>
    match findLastDot cs with
    | some i => some (i + 1)
    | none => if c = '.' then some 0 else none

/-- os.path.splitext(name)[0] for a bare file name (no directory separator):
split at the last dot unless every character before it is a dot (the
leading-dot rule of genericpath), in which case the whole name is the root. -/
def splitextRoot (s : String) : String :=
  match findLastDot s.data with
  | none => s
  | some i =>
    if (s.data.take i).all (fun c => c == '.') then s
    else String.mk (s.data.take i)

/-- The vowel mask of QuizGame.get_hint for hints_given = 1:
keep the character when it is one of aeiou, otherwise an underscore. -/
def pyVowelMask (answer : List Char) : List Char :=
  answer.map (fun c => if ("aeiou".data.contains c) = true then c else '_')

/-- The every-other-letter mask of QuizGame.get_hint for hints_given >= 2:
enumerate the characters and keep those at even indices. -/
def pyEveryOther (answer : List Char) : List Char :=
  answer.enum.map (fun ic => if ic.1 % 2 = 0 then ic.2 else '_')

/-- QuizGame.get_hint. Returns none exactly when Python raises IndexError:
the first hint reads answer[0], which is out of bounds for an empty derived
answer. Otherwise returns the hint string and the state with hints_given
incremented; the no-puzzle early return does not increment. -/
def get_hint (g : QuizGame) : Option (String × QuizGame) :=
  match g.current_puzzle with
  | none => some ("No active puzzle!", g)
  | some pz =>
    let answer := splitextRoot pz.image
    if g.hints_given = 0 then
      match answer.data with
      | [] => none
      | c :: _ =>
        some ("Length: " ++ toString answer.length ++ " letters\nFirst letter: "
               ++ String.singleton c,
              { g with hints_given := g.hints_given + 1 })
    else if g.hints_given = 1 then
      some (String.mk (pyVowelMask answer.data), { g with hints_given := g.hints_given + 1 })
    else
      some (String.mk (pyEveryOther answer.data), { g with hints_given := g.hints_given + 1 })

/-- Outcome of the /hint command (QuizBot.hint). -/
inductive HintOutcome where
  | noActiveGame
  | hintsExhausted
  | gave (hint : String)
  | indexError
deriving DecidableEq, Repr

/-- QuizBot.hint: no active game or puzzle, then the MAX_HINTS gate, then
QuizGame.get_hint. indexError models the uncaught IndexError on an empty
derived answer. -/
def hintCommand (g : QuizGame) : HintOutcome × QuizGame :=
  if g.game_active = false ∨ g.current_puzzle = none then (HintOutcome.noActiveGame, g)
  else if MAX_HINTS ≤ g.hints_given then (HintOutcome.hintsExhausted, g)
  else
    match get_hint g with
    | none => (HintOutcome.indexError, g)
    | some hg => (HintOutcome.gave hg.1, hg.2)

/-- Result of QuizBot.next_game. -/
inductive NextGameResult where
  | unauthorized
  | noActiveGame
  | noPuzzlesRemaining
  | drawn (p : Puzzle)
deriving DecidableEq, Repr

/-- QuizBot.next_game: admin gate, game-active gate, then either the
empty-pool branch (which calls end_game, setting game_active to false) or a
pop() of the last element of puzzle_data, which becomes current_puzzle with
hints_given reset and puzzle_solved cleared. -/
def nextGameOp (isAdmin : Bool) (g : QuizGame) : QuizGame × NextGameResult :=
  if isAdmin = false then (g, NextGameResult.unauthorized)
  else if g.game_active = false then (g, NextGameResult.noActiveGame)
  else
    match g.puzzle_data.getLast? with
    | none => ({ g with game_active := false }, NextGameResult.noPuzzlesRemaining)
    | some p =>
      ({ g with current_puzzle := some p,
                puzzle_data := g.puzzle_data.dropLast,
                hints_given := 0,
                puzzle_solved := false }, NextGameResult.drawn p)

/-- QuizBot.start_game after the admin gate: sets game_active, replaces
puzzle_data with its shuffled permutation (random.shuffle is in place;
the shuffled result is a parameter here), resets hints_given. The Boolean
reports whether the caller was authorized. current_puzzle is not touched. -/
def startGameOp (isAdmin : Bool) (shuffled : List Puzzle) (g : QuizGame) : QuizGame × Bool :=
  if isAdmin = false then (g, false)
  else ({ g with game_active := true, puzzle_data := shuffled, hints_given := 0 }, true)

/-- The update performed on the participants list by handle_message after a
correct answer: add points to the first record with the winner's username. -/
def updateScoreFirst (username : String) (pts : Int) : List Participant → List Participant
  | [] => []
  | p :: ps =>
    if (p.username == username) = true then { p with score := p.score + pts } :: ps
    else p :: updateScoreFirst username pts ps

/-- The stored score of a username: the score of the first matching record,
0 when absent. -/
def scoreOf (username : String) (store : List Participant) : Int :=
  match store.find? (fun p => p.username == username) with
  | some p => p.score
  | none => 0

/-- Result of handle_message: the new bot state, whether the message won the
round, and the scheduled deferred advance (delay in seconds paired with the
username of the update passed to schedule_next_game) when one was created. -/
structure SubmitResult where
  state : BotState
  won : Bool
  scheduled : Option (Nat × String)
deriving DecidableEq, Repr

/-- QuizBot.handle_message: the guards in source order (inactive game or no
puzzle, already solved, unregistered sender), then the comparison of the
stripped lower-cased text with the lower-cased stem of the image name; on a
match the round is marked solved, the winner's score is increased by
max(POINTS_PER_CORRECT_ANSWER - hints_given * HINT_PENALTY, 0), the list is
saved, and schedule_next_game is called with a 60 second delay carrying the
winner's own update. -/
def submitAnswer (username text : String) (s : BotState) : SubmitResult :=
  if s.game.game_active = false ∨ s.game.current_puzzle = none then ⟨s, false, none⟩
  else if s.game.puzzle_solved = true then ⟨s, false, none⟩
  else if s.store.any (fun p => p.username == username) = false then ⟨s, false, none⟩
  else
    match s.game.current_puzzle with
    | none => ⟨s, false, none⟩
    | some pz =>
      if pyLower (pyStrip text) = pyLower (splitextRoot pz.image) then
        ⟨⟨{ s.game with puzzle_solved := true },
          updateScoreFirst username
            (max (POINTS_PER_CORRECT_ANSWER - (s.game.hints_given : Int) * HINT_PENALTY) 0)
            s.store⟩,
         true, some (60, username)⟩
      else ⟨s, false, none⟩

/-- The body of the deferred task created by schedule_next_game: after the
sleep, if the game is still active, next_game is invoked with the update that
was captured at scheduling time, so the admin gate sees that caller. -/
def delayedNextGame (callerIsAdmin : Bool) (g : QuizGame) : QuizGame × Option NextGameResult :=
  if g.game_active = true then
    ((nextGameOp callerIsAdmin g).1, some (nextGameOp callerIsAdmin g).2)
  else (g, none)

/-- QuizBot.join_participate acting on the stored list: a registered username
is left alone; otherwise one record with score 0 is appended and saved. -/
def joinParticipate (username full_name join_date : String)
    (store : List Participant) : List Participant :=
  if store.any (fun p => p.username == username) = true then store
  else store ++ [⟨username, full_name, 0, join_date⟩]

/-- A sequence of join requests (username, full name, join date) processed in
order. -/
def runJoins : List (String × String × String) → List Participant → List Participant
  | [], store => store
  | r :: rest, store => runJoins rest (joinParticipate r.1 r.2.1 r.2.2 store)

/-- Repeatedly invoke next_game (authorized) up to the given fuel, collecting
the drawn puzzles in order; stop at the first outcome that draws nothing. -/
def drainPuzzles (isAdmin : Bool) : Nat → QuizGame → QuizGame × List Puzzle
  | 0, g => (g, [])
  | Nat.succ n, g =>
    match nextGameOp isAdmin g with
    | (g2, NextGameResult.drawn p) =>
      ((drainPuzzles isAdmin n g2).1, p :: (drainPuzzles isAdmin n g2).2)
    | (g2, _) => (g2, [])

/-- Content of one file slot of the store model. truncated stands for a file
that was opened for writing but whose JSON payload is incomplete. -/
inductive FileContent where
  | absent
  | valid (records : List Participant)
  | truncated
deriving DecidableEq, Repr

/-- The two file slots touched by the store: the canonical guessjoin.txt and
the guessjoin.txt.tmp scratch file. -/
structure Fs where
  canonical : FileContent
  temp : FileContent
deriving DecidableEq, Repr

/-- QuizGame.save_participate as file-system micro-steps: open the temp file
and start writing (leaving it truncated if interrupted), finish the JSON dump,
then os.replace the canonical file with the temp file atomically. -/
def saveParticipateSteps (users : List Participant) : List (Fs → Fs) :=
  [fun fs => { fs with temp := FileContent.truncated },
   fun fs => { fs with temp := FileContent.valid users },
   fun fs => { canonical := fs.temp, temp := FileContent.absent }]

/-- The confirm_reset branch of QuizBot.handle_reset_callback as file-system
micro-steps: open(QUIZJOIN_PATH, w) truncates the canonical file in place,
then json.dump writes the empty list. No temp file and no atomic replace. -/
def resetScoresSteps : List (Fs → Fs) :=
  [fun fs => { fs with canonical := FileContent.truncated },
   fun fs => { fs with canonical := FileContent.valid [] }]

/-- All file-system states reachable along a step sequence, the start state
included: a crash at any point leaves one of these on disk. -/
def statesAlong (fs : Fs) : List (Fs → Fs) → List Fs
  | [] => [fs]
  | st :: rest => fs :: statesAlong (st fs) rest

/-- Hint bodies as the specification words them: index 0 reveals the answer
length and first character, index 1 reveals the vowels in place and masks the
other characters with underscores, indices 2 and 3 reveal the characters at
even positions and mask the odd positions. -/
def specRevealVowels (answer : List Char) : List Char :=
  answer.map (fun c =>
    if c = 'a' ∨ c = 'e' ∨ c = 'i' ∨ c = 'o' ∨ c = 'u' then c else '_')

/-- Even positions revealed, odd positions masked, built positionally from the
specification's wording. -/
def specMaskOddPositions (answer : List Char) : List Char :=
  (List.range answer.length).zipWith (fun i c => if i % 2 = 0 then c else '_') answer

/-- The deterministic hint keyed by the hint index, as the specification
describes it; the fourth hint (index 3) reuses the every-other-letter body. -/
def specHintBody (idx : Nat) (answer : String) : String :=
  if idx = 0 then
    "Length: " ++ toString answer.length ++ " letters\nFirst letter: "
      ++ String.singleton (answer.data.headD ' ')
  else if idx = 1 then String.mk (specRevealVowels answer.data)
  else String.mk (specMaskOddPositions answer.data)


/- Concrete states used by the witnesses and counterexamples below. -/

def c1State : BotState :=
  ⟨⟨true, some ⟨"cat.png"⟩, [], 4, false⟩, [⟨"alice", "Alice", 2, "2024-01-01"⟩]⟩

def c2State : BotState :=
  ⟨⟨true, some ⟨"cat.png"⟩, [], 0, true⟩, [⟨"alice", "Alice", 5, "2024-01-01"⟩]⟩

def c8State : BotState :=
  ⟨⟨true, some ⟨"cat.png"⟩, [], 1, false⟩, [⟨"alice", "Alice", 7, "2024-01-01"⟩]⟩

def c4State : BotState :=
  ⟨⟨true, some ⟨"cat.png"⟩, [⟨"dog.png"⟩], 0, false⟩, [⟨"alice", "Alice", 0, "2024-01-01"⟩]⟩

def c5Game : QuizGame := ⟨false, some ⟨"cat.png"⟩, [], 2, true⟩

def fs0 : Fs :=
  { canonical := FileContent.valid [⟨"alice", "Alice", 3, "2024-01-01"⟩],
    temp := FileContent.absent }

def c10Game : QuizGame := ⟨true, some ⟨""⟩, [], 0, false⟩

def c3Game : QuizGame := ⟨true, none, [⟨"a.png"⟩, ⟨"b.png"⟩, ⟨"c.png"⟩], 0, false⟩

def c9Game : QuizGame := ⟨true, some ⟨"cat.png"⟩, [], 1, false⟩

lemma submitAnswer_eval (s : BotState) (username text : String) (pz : Puzzle)
    (hact : s.game.game_active = true)
    (hcur : s.game.current_puzzle = some pz)
    (hns : s.game.puzzle_solved = false)
    (hreg : s.store.any (fun p => p.username == username) = true) :
    submitAnswer username text s =
      if pyLower (pyStrip text) = pyLower (splitextRoot pz.image) then
        ⟨⟨{ s.game with puzzle_solved := true },
          updateScoreFirst username
            (max (POINTS_PER_CORRECT_ANSWER - (s.game.hints_given : Int) * HINT_PENALTY) 0)
            s.store⟩, true, some (60, username)⟩
      else ⟨s, false, none⟩ := by
  have h1 : ¬ (s.game.game_active = false ∨ s.game.current_puzzle = none) := by
    rw [hact, hcur]; simp
  have h2 : ¬ s.game.puzzle_solved = true := by rw [hns]; simp
  have h3 : ¬ s.store.any (fun p => p.username == username) = false := by rw [hreg]; simp
  unfold submitAnswer
  rw [if_neg h1, if_neg h2, if_neg h3, hcur]

lemma scoreOf_updateScoreFirst (u : String) (pts : Int) :
    ∀ store : List Participant, store.any (fun p => p.username == u) = true →
      scoreOf u (updateScoreFirst u pts store) = scoreOf u store + pts := by
  intro store
  induction store with
  | nil => intro h; simp at h
  | cons p ps ih =>
    intro h
    by_cases hp : (p.username == u) = true
    · simp only [updateScoreFirst, hp, if_true, scoreOf, List.find?]
    · have hp' : (p.username == u) = false := by
        cases hq : (p.username == u) with
        | true => exact absurd hq hp
        | false => rfl
      have h' : ps.any (fun q => q.username == u) = true := by
        simp only [List.any_cons, hp', Bool.false_or] at h
        exact h
      simp only [updateScoreFirst, hp', if_false, scoreOf, List.find?]
      simpa [hp'] using ih h'

/-- C1: a correct answer after k hints (k at most MAX_HINTS) adds exactly
max(0, POINTS_PER_CORRECT_ANSWER - k * HINT_PENALTY) points to the winner's
stored score, and at k = MAX_HINTS = 4 that award is 1 point, not 0. -/
theorem correct_answer_award (s : BotState) (username text : String) (pz : Puzzle)
    (hact : s.game.game_active = true)
    (hcur : s.game.current_puzzle = some pz)
    (hns : s.game.puzzle_solved = false)
    (hreg : s.store.any (fun p => p.username == username) = true)
    (_hk : s.game.hints_given ≤ MAX_HINTS)
    (hans : pyLower (pyStrip text) = pyLower (splitextRoot pz.image)) :
    (submitAnswer username text s).won = true ∧
    scoreOf username (submitAnswer username text s).state.store
      = scoreOf username s.store
        + max (POINTS_PER_CORRECT_ANSWER - (s.game.hints_given : Int) * HINT_PENALTY) 0 ∧
    max (POINTS_PER_CORRECT_ANSWER - (MAX_HINTS : Int) * HINT_PENALTY) 0 = 1 := by
  rw [submitAnswer_eval s username text pz hact hcur hns hreg, if_pos hans]
  exact ⟨rfl, scoreOf_updateScoreFirst username _ s.store hreg, by decide⟩


theorem correct_answer_award_witness :
    (c1State.game.game_active = true ∧
     c1State.game.current_puzzle = some ⟨"cat.png"⟩ ∧
     c1State.game.puzzle_solved = false ∧
     c1State.store.any (fun p => p.username == "alice") = true ∧
     c1State.game.hints_given ≤ MAX_HINTS ∧
     pyLower (pyStrip " CAT ") = pyLower (splitextRoot "cat.png")) ∧
    ((submitAnswer "alice" " CAT " c1State).won = true ∧
     scoreOf "alice" (submitAnswer "alice" " CAT " c1State).state.store
       = scoreOf "alice" c1State.store
         + max (POINTS_PER_CORRECT_ANSWER - (c1State.game.hints_given : Int) * HINT_PENALTY) 0 ∧
     max (POINTS_PER_CORRECT_ANSWER - (MAX_HINTS : Int) * HINT_PENALTY) 0 = 1) :=
  ⟨⟨rfl, rfl, rfl, by decide, by decide, by decide⟩,
   correct_answer_award c1State "alice" " CAT " ⟨"cat.png"⟩ rfl rfl rfl
     (by decide) (by decide) (by decide)⟩

/-- C2: submitAnswer is a complete no-op once the round is solved, and likewise
when the game is inactive, no puzzle is set, or the sender is unregistered:
the returned state equals the input state, so no score changes. -/
theorem submit_answer_noop (s : BotState) (username text : String)
    (h : s.game.puzzle_solved = true ∨ s.game.game_active = false ∨
         s.game.current_puzzle = none ∨
         s.store.any (fun p => p.username == username) = false) :
    submitAnswer username text s = ⟨s, false, none⟩ := by
  unfold submitAnswer
  rcases h with h | h | h | h
  · by_cases h1 : s.game.game_active = false ∨ s.game.current_puzzle = none
    · rw [if_pos h1]
    · rw [if_neg h1, if_pos h]
  · rw [if_pos (Or.inl h)]
  · rw [if_pos (Or.inr h)]
  · by_cases h1 : s.game.game_active = false ∨ s.game.current_puzzle = none
    · rw [if_pos h1]
    · rw [if_neg h1]
      by_cases h2 : s.game.puzzle_solved = true
      · rw [if_pos h2]
      · rw [if_neg h2, if_pos h]


theorem submit_answer_noop_witness :
    (c2State.game.puzzle_solved = true ∨ c2State.game.game_active = false ∨
     c2State.game.current_puzzle = none ∨
     c2State.store.any (fun p => p.username == "alice") = false) ∧
    submitAnswer "alice" "cat" c2State = ⟨c2State, false, none⟩ :=
  ⟨Or.inl rfl, submit_answer_noop c2State "alice" "cat" (Or.inl rfl)⟩

/-- C8: submitAnswer compares the stripped lower-cased text with the
lower-cased stem of the image file name; the round closes exactly on a match,
and a mismatch leaves the whole state untouched, so the round stays open. -/
theorem submit_answer_compare (s : BotState) (username text : String) (pz : Puzzle)
    (hact : s.game.game_active = true)
    (hcur : s.game.current_puzzle = some pz)
    (hns : s.game.puzzle_solved = false)
    (hreg : s.store.any (fun p => p.username == username) = true) :
    (submitAnswer username text s =
      if pyLower (pyStrip text) = pyLower (splitextRoot pz.image) then
        ⟨⟨{ s.game with puzzle_solved := true },
          updateScoreFirst username
            (max (POINTS_PER_CORRECT_ANSWER - (s.game.hints_given : Int) * HINT_PENALTY) 0)
            s.store⟩, true, some (60, username)⟩
      else ⟨s, false, none⟩) ∧
    ((submitAnswer username text s).state.game.puzzle_solved = true ↔
      pyLower (pyStrip text) = pyLower (splitextRoot pz.image)) := by
  have he := submitAnswer_eval s username text pz hact hcur hns hreg
  refine ⟨he, ?_⟩
  rw [he]
  by_cases hc : pyLower (pyStrip text) = pyLower (splitextRoot pz.image)
  · rw [if_pos hc]; simpa using hc
  · rw [if_neg hc]
    constructor
    · intro hfalse
      exact absurd (hns ▸ hfalse) (by simp)
    · intro hfalse; exact absurd hfalse hc


theorem submit_answer_compare_witness :
    (c8State.game.game_active = true ∧
     c8State.game.current_puzzle = some ⟨"cat.png"⟩ ∧
     c8State.game.puzzle_solved = false ∧
     c8State.store.any (fun p => p.username == "alice") = true) ∧
    ((submitAnswer "alice" "dog" c8State =
       if pyLower (pyStrip "dog") = pyLower (splitextRoot "cat.png") then
         ⟨⟨{ c8State.game with puzzle_solved := true },
           updateScoreFirst "alice"
             (max (POINTS_PER_CORRECT_ANSWER - (c8State.game.hints_given : Int) * HINT_PENALTY) 0)
             c8State.store⟩, true, some (60, "alice")⟩
       else ⟨c8State, false, none⟩) ∧
     ((submitAnswer "alice" "dog" c8State).state.game.puzzle_solved = true ↔
       pyLower (pyStrip "dog") = pyLower (splitextRoot "cat.png"))) :=
  ⟨⟨rfl, rfl, rfl, by decide⟩,
   submit_answer_compare c8State "alice" "dog" ⟨"cat.png"⟩ rfl rfl rfl (by decide)⟩


/-- C4: after a correct answer an advance is scheduled with a fixed 60 second
delay carrying the winner's update, but at expiry next_game re-runs the admin
check against that update: for the non-admin winner alice the deferred advance
is refused and no new puzzle is drawn even though the game is active and the
pool is nonempty, while the same expiry with an admin caller does draw one. -/
theorem scheduled_advance_blocked_for_nonadmin_winner :
    isAuthorizedAdmin "alice" = false ∧
    (submitAnswer "alice" "cat" c4State).won = true ∧
    (submitAnswer "alice" "cat" c4State).scheduled = some (60, "alice") ∧
    (submitAnswer "alice" "cat" c4State).state.game.game_active = true ∧
    (submitAnswer "alice" "cat" c4State).state.game.puzzle_data = [⟨"dog.png"⟩] ∧
    delayedNextGame (isAuthorizedAdmin "alice") (submitAnswer "alice" "cat" c4State).state.game
      = ((submitAnswer "alice" "cat" c4State).state.game, some NextGameResult.unauthorized) ∧
    (delayedNextGame true (submitAnswer "alice" "cat" c4State).state.game).1.current_puzzle
      = some ⟨"dog.png"⟩ := by
  refine ⟨by decide, by decide, by decide, by decide, by decide, by decide, by decide⟩


/-- C5 counterexample: an authorized startGame on a state that still holds a
current puzzle (an earlier game was ended mid-round) leaves currentPuzzle set;
the claim that startGame clears currentPuzzle is false. -/
theorem start_game_keeps_current_puzzle_cex :
    (startGameOp true [] c5Game).1.game_active = true ∧
    (startGameOp true [] c5Game).1.hints_given = 0 ∧
    (startGameOp true [] c5Game).1.current_puzzle = some ⟨"cat.png"⟩ ∧
    ¬ (startGameOp true [] c5Game).1.current_puzzle = none := by
  refine ⟨by decide, by decide, by decide, by decide⟩

/-- C5 amended: an authorized startGame sets gameActive, installs the shuffled
permutation of the pool, resets hintsGiven to 0, and leaves currentPuzzle
exactly as it was: it does not clear it. -/
theorem start_game_spec (g : QuizGame) (shuffled : List Puzzle)
    (hperm : shuffled.Perm g.puzzle_data) :
    (startGameOp true shuffled g).1.game_active = true ∧
    (startGameOp true shuffled g).1.hints_given = 0 ∧
    (startGameOp true shuffled g).1.puzzle_data.Perm g.puzzle_data ∧
    (startGameOp true shuffled g).1.current_puzzle = g.current_puzzle := by
  unfold startGameOp
  rw [if_neg (by simp)]
  exact ⟨rfl, rfl, hperm, rfl⟩

theorem start_game_spec_witness :
    ([⟨"b.png"⟩, ⟨"a.png"⟩] : List Puzzle).Perm [⟨"a.png"⟩, ⟨"b.png"⟩] ∧
    ((startGameOp true [⟨"b.png"⟩, ⟨"a.png"⟩] ⟨false, none, [⟨"a.png"⟩, ⟨"b.png"⟩], 3, false⟩).1.game_active = true ∧
     (startGameOp true [⟨"b.png"⟩, ⟨"a.png"⟩] ⟨false, none, [⟨"a.png"⟩, ⟨"b.png"⟩], 3, false⟩).1.hints_given = 0 ∧
     (startGameOp true [⟨"b.png"⟩, ⟨"a.png"⟩] ⟨false, none, [⟨"a.png"⟩, ⟨"b.png"⟩], 3, false⟩).1.puzzle_data.Perm [⟨"a.png"⟩, ⟨"b.png"⟩] ∧
     (startGameOp true [⟨"b.png"⟩, ⟨"a.png"⟩] ⟨false, none, [⟨"a.png"⟩, ⟨"b.png"⟩], 3, false⟩).1.current_puzzle = none) :=
  ⟨List.Perm.swap _ _ _, start_game_spec ⟨false, none, [⟨"a.png"⟩, ⟨"b.png"⟩], 3, false⟩
    [⟨"b.png"⟩, ⟨"a.png"⟩] (List.Perm.swap _ _ _)⟩


/-- C6 counterexample: along the confirmed reset path there is a crash point at
which the canonical store file is truncated, while no crash point of
save_participate ever leaves the canonical file truncated; the claim that the
reset path has the same atomicity guarantee as saveAll is false. -/
theorem reset_not_atomic_cex :
    ((statesAlong fs0 resetScoresSteps).map Fs.canonical).contains FileContent.truncated = true ∧
    ((statesAlong fs0 (saveParticipateSteps [])).map Fs.canonical).contains FileContent.truncated = false := by
  refine ⟨by decide, by decide⟩

/-- C6 amended: the confirmed reset writes the empty record set directly into
the canonical file (truncate in place, then write), so its crash window shows
a truncated canonical file, whereas save_participate keeps the canonical file
unchanged until the final atomic replace installs the new content. -/
theorem reset_scores_effect (fs : Fs) (users : List Participant) :
    (statesAlong fs resetScoresSteps).map Fs.canonical
      = [fs.canonical, FileContent.truncated, FileContent.valid []] ∧
    (statesAlong fs (saveParticipateSteps users)).map Fs.canonical
      = [fs.canonical, fs.canonical, fs.canonical, FileContent.valid users] := by
  exact ⟨rfl, rfl⟩

lemma join_preserves_nodup (u f d : String) (store : List Participant)
    (h : (store.map Participant.username).Nodup) :
    ((joinParticipate u f d store).map Participant.username).Nodup := by
  unfold joinParticipate
  by_cases hmem : store.any (fun p => p.username == u) = true
  · rw [if_pos hmem]; exact h
  · rw [if_neg hmem, List.map_append, List.nodup_append]
    refine ⟨h, List.nodup_singleton u, ?_⟩
    intro a ha hb
    simp only [List.map_cons, List.map_nil, List.mem_singleton] at hb
    subst hb
    apply hmem
    rw [List.any_eq_true]
    rcases List.mem_map.mp ha with ⟨p, hp, hpu⟩
    exact ⟨p, hp, by simp [hpu]⟩

lemma runJoins_nodup (reqs : List (String × String × String)) :
    ∀ store : List Participant, (store.map Participant.username).Nodup →
      ((runJoins reqs store).map Participant.username).Nodup := by
  induction reqs with
  | nil => intro store h; exact h
  | cons r rest ih =>
    intro store h
    exact ih _ (join_preserves_nodup r.1 r.2.1 r.2.2 store h)

/-- C7: starting from the empty roster, any sequence of joins leaves the
usernames without duplicates; a join for a registered username returns the
store unchanged, and a first join appends exactly one record with score 0. -/
theorem join_roster_spec (reqs : List (String × String × String)) (u f d : String)
    (store store2 : List Participant)
    (hreg : store.any (fun p => p.username == u) = true)
    (hnew : store2.any (fun p => p.username == u) = false) :
    ((runJoins reqs []).map Participant.username).Nodup ∧
    joinParticipate u f d store = store ∧
    joinParticipate u f d store2 = store2 ++ [⟨u, f, 0, d⟩] := by
  refine ⟨runJoins_nodup reqs [] (by simp), ?_, ?_⟩
  · unfold joinParticipate; rw [if_pos hreg]
  · unfold joinParticipate; rw [if_neg (by rw [hnew]; simp)]

theorem join_roster_spec_witness :
    (([⟨"alice", "Alice", 3, "2024-01-01"⟩] : List Participant).any
       (fun p => p.username == "alice") = true ∧
     ([⟨"bob", "Bob", 0, "2024-01-01"⟩] : List Participant).any
       (fun p => p.username == "alice") = false) ∧
    (((runJoins [("alice", "Alice", "d1"), ("alice", "Alice", "d2"), ("bob", "Bob", "d3")] []).map
        Participant.username).Nodup ∧
     joinParticipate "alice" "Alice" "d4" [⟨"alice", "Alice", 3, "2024-01-01"⟩]
       = [⟨"alice", "Alice", 3, "2024-01-01"⟩] ∧
     joinParticipate "alice" "Alice" "d4" [⟨"bob", "Bob", 0, "2024-01-01"⟩]
       = [⟨"bob", "Bob", 0, "2024-01-01"⟩] ++ [⟨"alice", "Alice", 0, "d4"⟩]) :=
  ⟨⟨by decide, by decide⟩,
   join_roster_spec [("alice", "Alice", "d1"), ("alice", "Alice", "d2"), ("bob", "Bob", "d3")]
     "alice" "Alice" "d4" [⟨"alice", "Alice", 3, "2024-01-01"⟩]
     [⟨"bob", "Bob", 0, "2024-01-01"⟩] (by decide) (by decide)⟩

/-- C10: at hint index 0 the hint reads the first character of the derived
answer, so get_hint succeeds exactly when the image name's stem is non-empty;
with an empty derived answer the computation is out of bounds (IndexError). -/
theorem hint_first_index_safety (g : QuizGame) (pz : Puzzle)
    (hcur : g.current_puzzle = some pz) (h0 : g.hints_given = 0) :
    ((get_hint g).isSome ↔ splitextRoot pz.image ≠ "") := by
  unfold get_hint
  rw [hcur]
  cases hd : (splitextRoot pz.image).data with
  | nil =>
    have hempty : splitextRoot pz.image = "" := by
      apply String.ext
      rw [hd]
    simp [h0, hd, hempty]
  | cons c cs =>
    have hne : splitextRoot pz.image ≠ "" := by
      intro hc
      rw [hc] at hd
      simp at hd
    simp [h0, hd, hne]


theorem hint_first_index_safety_witness :
    (c10Game.current_puzzle = some ⟨""⟩ ∧ c10Game.hints_given = 0) ∧
    ((get_hint c10Game).isSome ↔ splitextRoot "" ≠ "") ∧
    get_hint c10Game = none :=
  ⟨⟨rfl, rfl⟩, hint_first_index_safety c10Game ⟨""⟩ rfl rfl, by decide⟩

lemma drain_step (g : QuizGame) (l : List Puzzle) (a : Puzzle)
    (ha : g.game_active = true) (hd : g.puzzle_data = l ++ [a]) :
    nextGameOp true g =
      ({ g with current_puzzle := some a, puzzle_data := l,
                hints_given := 0, puzzle_solved := false }, NextGameResult.drawn a) := by
  unfold nextGameOp
  rw [if_neg (by simp), if_neg (by rw [ha]; simp), hd,
      List.getLast?_concat, List.dropLast_concat]

lemma drainPuzzles_spec (l : List Puzzle) :
    ∀ g : QuizGame, g.game_active = true → g.puzzle_data = l →
      (drainPuzzles true l.length g).1.puzzle_data = [] ∧
      (drainPuzzles true l.length g).1.game_active = true ∧
      (drainPuzzles true l.length g).2 = l.reverse := by
  induction l using List.reverseRecOn with
  | nil =>
    intro g ha hd
    exact ⟨hd, ha, rfl⟩
  | append_singleton l' a ih =>
    intro g ha hd
    have hlen : (l' ++ [a]).length = l'.length + 1 := by simp
    rw [hlen]
    have hstep := drain_step g l' a ha hd
    simp only [drainPuzzles, hstep]
    have hrest := ih { g with current_puzzle := some a, puzzle_data := l',
                              hints_given := 0, puzzle_solved := false } ha rfl
    refine ⟨hrest.1, hrest.2.1, ?_⟩
    rw [hrest.2.2, List.reverse_append]
    rfl

/-- C3: with the game active, repeatedly advancing pops the pool in the fixed
order determined at game start (the reverse of the stored shuffled list),
drawing a permutation of the pool with no repetition or omission; once the
pool is empty the next advance reports noPuzzlesRemaining and deactivates the
game. -/
theorem game_drains_pool (g : QuizGame) (hact : g.game_active = true) :
    (drainPuzzles true g.puzzle_data.length g).2 = g.puzzle_data.reverse ∧
    (drainPuzzles true g.puzzle_data.length g).2.Perm g.puzzle_data ∧
    (drainPuzzles true g.puzzle_data.length g).1.puzzle_data = [] ∧
    (nextGameOp true (drainPuzzles true g.puzzle_data.length g).1).2
      = NextGameResult.noPuzzlesRemaining ∧
    (nextGameOp true (drainPuzzles true g.puzzle_data.length g).1).1.game_active = false := by
  obtain ⟨h1, h2, h3⟩ := drainPuzzles_spec g.puzzle_data g hact rfl
  have hnext : nextGameOp true (drainPuzzles true g.puzzle_data.length g).1
      = ({ (drainPuzzles true g.puzzle_data.length g).1 with game_active := false },
         NextGameResult.noPuzzlesRemaining) := by
    unfold nextGameOp
    rw [if_neg (by simp), if_neg (by rw [h2]; simp)]
    simp [h1]
  refine ⟨h3, ?_, h1, ?_, ?_⟩
  · rw [h3]; exact List.reverse_perm g.puzzle_data
  · rw [hnext]
  · rw [hnext]


theorem game_drains_pool_witness :
    c3Game.game_active = true ∧
    ((drainPuzzles true c3Game.puzzle_data.length c3Game).2 = c3Game.puzzle_data.reverse ∧
     (drainPuzzles true c3Game.puzzle_data.length c3Game).2.Perm c3Game.puzzle_data ∧
     (drainPuzzles true c3Game.puzzle_data.length c3Game).1.puzzle_data = [] ∧
     (nextGameOp true (drainPuzzles true c3Game.puzzle_data.length c3Game).1).2
       = NextGameResult.noPuzzlesRemaining ∧
     (nextGameOp true (drainPuzzles true c3Game.puzzle_data.length c3Game).1).1.game_active = false) :=
  ⟨rfl, game_drains_pool c3Game rfl⟩

lemma enumFrom_mask (l : List Char) :
    ∀ n : Nat, (List.enumFrom n l).map (fun ic => if ic.1 % 2 = 0 then ic.2 else '_')
      = (List.range' n l.length).zipWith (fun i c => if i % 2 = 0 then c else '_') l := by
  induction l with
  | nil => intro n; rfl
  | cons c cs ih =>
    intro n
    simp only [List.enumFrom, List.map_cons, List.length_cons, List.range'_succ,
               List.zipWith_cons_cons, ih (n + 1)]

lemma pyEveryOther_eq_spec (l : List Char) :
    pyEveryOther l = specMaskOddPositions l := by
  unfold pyEveryOther specMaskOddPositions List.enum
  rw [List.range_eq_range']
  exact enumFrom_mask l 0

lemma pyVowelMask_eq_spec (l : List Char) :
    pyVowelMask l = specRevealVowels l := by
  unfold pyVowelMask specRevealVowels
  congr 1
  funext c
  by_cases h : c = 'a' ∨ c = 'e' ∨ c = 'i' ∨ c = 'o' ∨ c = 'u'
  · rw [if_pos h]
    have hc : ("aeiou".data.contains c) = true := by
      rcases h with h | h | h | h | h <;> rw [h] <;> decide
    rw [if_pos hc]
  · rw [if_neg h]
    have hc : ("aeiou".data.contains c) = false := by
      cases hq : ("aeiou".data.contains c) with
      | false => rfl
      | true =>
        exfalso
        apply h
        have hmem : c ∈ ("aeiou".data) := by
          simpa using hq
        simpa using hmem
    rw [hc]
    simp

lemma get_hint_eval (g : QuizGame) (pz : Puzzle) (hcur : g.current_puzzle = some pz)
    (hans : splitextRoot pz.image ≠ "") :
    get_hint g = some (specHintBody g.hints_given (splitextRoot pz.image),
                       { g with hints_given := g.hints_given + 1 }) := by
  unfold get_hint specHintBody
  rw [hcur]
  by_cases h0 : g.hints_given = 0
  · rw [h0]
    cases hd : (splitextRoot pz.image).data with
    | nil =>
      exfalso
      apply hans
      apply String.ext
      rw [hd]
    | cons c cs => simp [hd]
  · by_cases h1 : g.hints_given = 1
    · rw [h1]
      simp [pyVowelMask_eq_spec]
    · simp [if_neg h0, if_neg h1, pyEveryOther_eq_spec]

/-- C9: with an active puzzle whose derived answer is non-empty and hintsGiven
at most MAX_HINTS, the hint command fails with hintsExhausted exactly when
hintsGiven has reached MAX_HINTS = 4 (so hintsGiven never exceeds 4), and
otherwise emits the deterministic hint for the current index — length plus
first letter, then vowels, then the every-other-letter mask that the third and
fourth hints share — and increments hintsGiven by one. -/
theorem hint_command_spec (g : QuizGame) (pz : Puzzle)
    (hact : g.game_active = true) (hcur : g.current_puzzle = some pz)
    (hans : splitextRoot pz.image ≠ "") (hk : g.hints_given ≤ MAX_HINTS) :
    hintCommand g =
      (if MAX_HINTS ≤ g.hints_given then (HintOutcome.hintsExhausted, g)
       else (HintOutcome.gave (specHintBody g.hints_given (splitextRoot pz.image)),
             { g with hints_given := g.hints_given + 1 })) ∧
    (hintCommand g).2.hints_given ≤ MAX_HINTS := by
  have hred : hintCommand g =
      (if MAX_HINTS ≤ g.hints_given then (HintOutcome.hintsExhausted, g)
       else (HintOutcome.gave (specHintBody g.hints_given (splitextRoot pz.image)),
             { g with hints_given := g.hints_given + 1 })) := by
    unfold hintCommand
    rw [if_neg (by rw [hact, hcur]; simp)]
    by_cases hex : MAX_HINTS ≤ g.hints_given
    · rw [if_pos hex, if_pos hex]
    · rw [if_neg hex, if_neg hex, get_hint_eval g pz hcur hans]
  refine ⟨hred, ?_⟩
  rw [hred]
  by_cases hex : MAX_HINTS ≤ g.hints_given
  · rw [if_pos hex]
    exact hk
  · rw [if_neg hex]
    show g.hints_given + 1 ≤ MAX_HINTS
    unfold MAX_HINTS at hex ⊢
    omega


theorem hint_command_spec_witness :
    (c9Game.game_active = true ∧ c9Game.current_puzzle = some ⟨"cat.png"⟩ ∧
     splitextRoot "cat.png" ≠ "" ∧ c9Game.hints_given ≤ MAX_HINTS) ∧
    (hintCommand c9Game =
       (if MAX_HINTS ≤ c9Game.hints_given then (HintOutcome.hintsExhausted, c9Game)
        else (HintOutcome.gave (specHintBody c9Game.hints_given (splitextRoot "cat.png")),
              { c9Game with hints_given := c9Game.hints_given + 1 })) ∧
     (hintCommand c9Game).2.hints_given ≤ MAX_HINTS) :=
  ⟨⟨rfl, rfl, by decide, by decide⟩,
   hint_command_spec c9Game ⟨"cat.png"⟩ rfl rfl (by decide) (by decide)⟩
